import Mathlib

/-!
Shallow embedding of the scheduling core of the social_poster repository
(src/core/models.py, src/core/storage.py, src/core/scheduler.py, and the
GUI retry entry point in src/gui/main_window.py).

Python `datetime` values are embedded as `Int` (a totally ordered clock;
`datetime` subtraction and comparison are exact, and `fromisoformat ∘
isoformat` is the identity, so serialized datetimes are carried as their
values).  Durations follow the same unit, with one minute = 60.
Fallible operations return `Option`/`Bool` exactly where the Python code
returns `None`/`False`.
-/

namespace SocialPoster

/-- models.py `TaskStatus`: the four-state task status enum. -/
inductive TaskStatus where
  | pending
  | running
  | completed
  | failed
deriving DecidableEq

/-- models.py `TaskStatus.value`: the serialized string of a status. -/
def TaskStatus.value : TaskStatus → String
  | .pending => "pending"
  | .running => "running"
  | .completed => "completed"
  | .failed => "failed"

/-- models.py `TaskStatus(s)`: deserialization; an unknown string raises
`ValueError` in Python, embedded as `none`. -/
def TaskStatus.ofValue (s : String) : Option TaskStatus :=
  if s = "pending" then some .pending
  else if s = "running" then some .running
  else if s = "completed" then some .completed
  else if s = "failed" then some .failed
  else none

/-- models.py `PublishTask` dataclass.  `created_time` and `updated_time`
are declared `Optional[datetime]`; `result_message` is declared `str` but
`reset_for_retry` assigns `None` to it, so it is `Option String` here. -/
structure PublishTask where
  id : String
  title : String
  content : String
  images : List String
  topics : List String
  publish_time : Int
  status : TaskStatus
  created_time : Option Int
  updated_time : Option Int
  result_message : Option String
  retry_count : Nat
  max_retries : Nat
deriving DecidableEq

/-- models.py `PublishTask.__post_init__`: fills a missing `created_time`
with the clock and unconditionally overwrites `updated_time` with the
clock (the two `datetime.now()` calls are taken at the same instant). -/
def PublishTask.post_init (t : PublishTask) (now : Int) : PublishTask :=
  { t with created_time := some (t.created_time.getD now),
           updated_time := some now }

/-- models.py `PublishTask.is_ready_to_execute`: Pending and due. -/
def is_ready_to_execute (t : PublishTask) (now : Int) : Bool :=
  decide (t.status = .pending) && decide (t.publish_time ≤ now)

/-- models.py `PublishTask.can_retry`: Failed with retries left. -/
def can_retry (t : PublishTask) : Bool :=
  decide (t.status = .failed) && decide (t.retry_count < t.max_retries)

/-- models.py `PublishTask.mark_running`. -/
def PublishTask.mark_running (t : PublishTask) (now : Int) : PublishTask :=
  { t with status := .running, updated_time := some now }

/-- models.py `PublishTask.mark_completed`. -/
def PublishTask.mark_completed (t : PublishTask) (message : String) (now : Int) : PublishTask :=
  { t with status := .completed, result_message := some message,
           updated_time := some now }

/-- models.py `PublishTask.mark_failed`: records the message, increments
`retry_count` and stamps `updated_time`. -/
def PublishTask.mark_failed (t : PublishTask) (message : String) (now : Int) : PublishTask :=
  { t with status := .failed, result_message := some message,
           retry_count := t.retry_count + 1, updated_time := some now }

/-- models.py `PublishTask.reset_for_retry`: back to Pending, clears the
message (`None`), stamps `updated_time`; `retry_count` is left alone. -/
def PublishTask.reset_for_retry (t : PublishTask) (now : Int) : PublishTask :=
  { t with status := .pending, result_message := none, updated_time := some now }

/-- The dictionary produced by models.py `PublishTask.to_dict`: datetimes
are isoformat strings (carried as their values, isoformat being
injective with `fromisoformat` as inverse), the status is its value
string. -/
structure TaskDict where
  id : String
  title : String
  content : String
  images : List String
  topics : List String
  publish_time : Int
  status : String
  created_time : Option Int
  updated_time : Option Int
  result_message : Option String
  retry_count : Nat
  max_retries : Nat
deriving DecidableEq

/-- models.py `PublishTask.to_dict`: `asdict` plus isoformat on the
datetime fields (a datetime is always truthy, and `None` stays `None`)
and `status.value` on the enum. -/
def PublishTask.to_dict (t : PublishTask) : TaskDict :=
  { id := t.id, title := t.title, content := t.content, images := t.images,
    topics := t.topics, publish_time := t.publish_time,
    status := t.status.value, created_time := t.created_time,
    updated_time := t.updated_time, result_message := t.result_message,
    retry_count := t.retry_count, max_retries := t.max_retries }

/-- models.py `PublishTask.from_dict`: parses the datetime strings and the
status, then constructs the dataclass, which runs `__post_init__` at the
clock instant `now`. -/
def PublishTask.from_dict (d : TaskDict) (now : Int) : Option PublishTask :=
  match TaskStatus.ofValue d.status with
  | none => none
  | some st =>
      some (PublishTask.post_init
        { id := d.id, title := d.title, content := d.content,
          images := d.images, topics := d.topics,
          publish_time := d.publish_time, status := st,
          created_time := d.created_time, updated_time := d.updated_time,
          result_message := d.result_message, retry_count := d.retry_count,
          max_retries := d.max_retries } now)

/-! ## storage.py TaskStorage (in-memory list of tasks) -/

/-- storage.py `TaskStorage.add_task`: appends, returns `True`
unconditionally (the `except` branch is unreachable for a list append). -/
def add_task (tasks : List PublishTask) (t : PublishTask) :
    List PublishTask × Bool :=
  (tasks ++ [t], true)

/-- storage.py `TaskStorage.update_task`: replaces the first task whose id
matches and returns `True`; returns `False` when no id matches. -/
def update_task (tasks : List PublishTask) (t : PublishTask) :
    List PublishTask × Bool :=
  match tasks with
  | [] => ([], false)
  | x :: xs =>
      if x.id = t.id then (t :: xs, true)
      else
        let r := update_task xs t
        (x :: r.1, r.2)

/-- storage.py `TaskStorage.delete_task`: removes every task with the id
and reports whether the list shrank. -/
def delete_task (tasks : List PublishTask) (tid : String) :
    List PublishTask × Bool :=
  let remaining := tasks.filter (fun t => decide (¬ t.id = tid))
  (remaining, decide (remaining.length < tasks.length))

/-- storage.py `TaskStorage.get_task_by_id`: first task with the id. -/
def get_task_by_id (tasks : List PublishTask) (tid : String) :
    Option PublishTask :=
  tasks.find? (fun t => decide (t.id = tid))

/-- storage.py `TaskStorage.get_pending_tasks`. -/
def get_pending_tasks (tasks : List PublishTask) : List PublishTask :=
  tasks.filter (fun t => decide (t.status = .pending))

/-- storage.py `TaskStorage.get_ready_tasks`. -/
def get_ready_tasks (tasks : List PublishTask) (now : Int) : List PublishTask :=
  tasks.filter (fun t => is_ready_to_execute t now)

/-- storage.py `TaskStorage.get_failed_retry_tasks`. -/
def get_failed_retry_tasks (tasks : List PublishTask) : List PublishTask :=
  tasks.filter (fun t => can_retry t)

/-- storage.py `TaskStorage.cleanup_old_tasks`: with
`cutoff = now - keepDuration` (`datetime.now() - timedelta(days=keep_days)`),
keeps a task iff its status is Pending or Running, or its `updated_time`
is set (truthy) and strictly after the cutoff. -/
def cleanup_old_tasks (tasks : List PublishTask) (now keepDuration : Int) :
    List PublishTask :=
  let cutoff := now - keepDuration
  tasks.filter (fun t =>
    decide (t.status = .pending) || decide (t.status = .running) ||
      (match t.updated_time with
       | none => false
       | some u => decide (cutoff < u)))

/-! ## scheduler.py SimpleScheduler

The scheduler state kept by the claims' code paths: the `is_running`
flag, the storage's task list and the `executing_tasks` guard set.
Timers, Qt signals and the spawned worker threads are external effects;
each spawned attempt reports back exactly once through
`handle_task_success` / `handle_task_error`. -/

/-- models.py `AppConfig` (defaults as in the dataclass). -/
structure AppConfig where
  firefox_profile_path : String := "firefox_profile"
  tasks_file_path : String := "tasks.json"
  log_file_path : String := "app.log"
  check_interval_seconds : Nat := 60
  publish_timeout_seconds : Nat := 300
  min_publish_interval_minutes : Nat := 5
  headless_mode : Bool := false
  browser_launch_timeout : Nat := 90
  page_load_timeout : Nat := 60
deriving DecidableEq

/-- The scheduler's mutable state (scheduler.py `SimpleScheduler`):
`is_running`, the storage contents, and the `executing_tasks` id set. -/
structure SchedulerState where
  is_running : Bool
  tasks : List PublishTask
  executing_tasks : Finset String
deriving DecidableEq

/-- The `result` dict a completion callback carries: `success` plus an
optional `message` (`dict.get` falls back to a default when absent). -/
structure CallbackResult where
  success : Bool
  message : Option String
deriving DecidableEq

/-- Python `datetime.min`, the least datetime, used as the sort key of a
missing `updated_time`. -/
def datetimeMin : Int := 0

/-- The sort key in scheduler.py `_check_publish_interval`:
`x.updated_time or datetime.min`. -/
def updatedKey (t : PublishTask) : Int :=
  t.updated_time.getD datetimeMin

/-- Stable descending insertion by `updatedKey` (helper of
`sortUpdatedDesc`). -/
def insertUpdatedDesc (t : PublishTask) : List PublishTask → List PublishTask
  | [] => [t]
  | y :: ys =>
      if updatedKey y ≤ updatedKey t then t :: y :: ys
      else y :: insertUpdatedDesc t ys

/-- `completed_tasks.sort(key=..., reverse=True)`: Python's `list.sort`
is stable, and any two stable sorts agree, so it is embedded as a stable
descending insertion sort on the `updatedKey`. -/
def sortUpdatedDesc : List PublishTask → List PublishTask
  | [] => []
  | x :: xs => insertUpdatedDesc x (sortUpdatedDesc xs)

/-- scheduler.py `SimpleScheduler._check_publish_interval`: `True` when
no task has completed; otherwise compares `now` against the most
recently updated Completed task's `updated_time` (skipping the check,
returning `True`, when that field is `None`).  Reads only the store and
the clock. -/
def check_publish_interval (tasks : List PublishTask) (now : Int)
    (minMinutes : Nat) : Bool :=
  let completed := tasks.filter (fun t => decide (t.status = .completed))
  if completed.isEmpty then true
  else
    match sortUpdatedDesc completed with
    | [] => true
    | last_task :: _ =>
        match last_task.updated_time with
        | none => true
        | some u =>
            if now - u < (minMinutes : Int) * 60 then false else true

/-- scheduler.py `SimpleScheduler._handle_task_error`: look the task up
by id; if absent just drop the guard entry; otherwise `mark_failed`,
persist, and drop the guard entry. -/
def handle_task_error (s : SchedulerState) (tid msg : String) (now : Int) :
    SchedulerState :=
  match get_task_by_id s.tasks tid with
  | none => { s with executing_tasks := s.executing_tasks.erase tid }
  | some task =>
      { s with tasks := (update_task s.tasks (task.mark_failed msg now)).1,
               executing_tasks := s.executing_tasks.erase tid }

/-- scheduler.py `SimpleScheduler._handle_task_success`: look the task up
by id (a missing task only logs); a genuinely successful result marks it
Completed and drops the guard entry; anything else is routed to
`_handle_task_error` with the appropriate message. -/
def handle_task_success (s : SchedulerState) (tid : String)
    (res : Option CallbackResult) (now : Int) : SchedulerState :=
  match get_task_by_id s.tasks tid with
  | none => s
  | some task =>
      match res with
      | some r =>
          if r.success then
            { s with
              tasks := (update_task s.tasks
                (task.mark_completed (r.message.getD "发布成功") now)).1,
              executing_tasks := s.executing_tasks.erase tid }
          else handle_task_error s tid (r.message.getD "发布失败") now
      | none => handle_task_error s tid "未获取到发布结果" now

/-- scheduler.py `SimpleScheduler._execute_task_async`: if any attempt is
already in flight the new task is rejected through `_handle_task_error`;
otherwise the task is marked Running, persisted, its id added to the
guard set, and the publish attempt is spawned (an external effect whose
outcome arrives later as a callback). -/
def execute_task_async (s : SchedulerState) (task : PublishTask) (now : Int) :
    SchedulerState :=
  if 0 < s.executing_tasks.card then
    handle_task_error s task.id "已有任务在执行中，请等待完成" now
  else
    { s with tasks := (update_task s.tasks (task.mark_running now)).1,
             executing_tasks := insert task.id s.executing_tasks }

/-- The `for task in all_ready_tasks` loop of
`SimpleScheduler.check_and_execute_tasks`: skip tasks already in the
guard set, skip while the publish interval forbids, otherwise dispatch. -/
def tick_loop (cfg : AppConfig) (now : Int) :
    SchedulerState → List PublishTask → SchedulerState
  | s, [] => s
  | s, task :: rest =>
      if task.id ∈ s.executing_tasks then tick_loop cfg now s rest
      else if check_publish_interval s.tasks now
          cfg.min_publish_interval_minutes = false then
        tick_loop cfg now s rest
      else tick_loop cfg now (execute_task_async s task now) rest

/-- scheduler.py `SimpleScheduler.check_and_execute_tasks` (the tick):
no-op unless running; gathers due tasks and retry-eligible tasks and
runs the dispatch loop over them (returning early when there are none). -/
def check_and_execute_tasks (s : SchedulerState) (cfg : AppConfig)
    (now : Int) : SchedulerState :=
  if s.is_running = false then s
  else
    let ready_tasks := get_ready_tasks s.tasks now
    let retry_tasks := get_failed_retry_tasks s.tasks
    let all_ready_tasks := ready_tasks ++ retry_tasks
    if all_ready_tasks.isEmpty then s
    else tick_loop cfg now s all_ready_tasks

/-- scheduler.py `SimpleScheduler.execute_task_immediately`: refuses when
the scheduler is stopped, when any attempt is in flight, when the task is
missing, or when it is not Pending; otherwise dispatches at once through
`_execute_task_async` — no `_check_publish_interval` consultation
anywhere on this path. -/
def execute_task_immediately (s : SchedulerState) (tid : String)
    (now : Int) : Bool × SchedulerState :=
  if s.is_running = false then (false, s)
  else if s.executing_tasks ≠ ∅ then (false, s)
  else
    match get_task_by_id s.tasks tid with
    | none => (false, s)
    | some task =>
        if task.status ≠ .pending then (false, s)
        else if task.id ∈ s.executing_tasks then (false, s)
        else (true, execute_task_async s task now)

/-- gui/main_window.py `MainWindow.retry_task`, the repository's only
caller of `reset_for_retry`: looks the task up and resets it only when
`task.can_retry()` holds (otherwise the GUI reports the task cannot be
retried and nothing changes). -/
def retry_task (s : SchedulerState) (tid : String) (now : Int) :
    SchedulerState :=
  match get_task_by_id s.tasks tid with
  | none => s
  | some task =>
      if can_retry task then
        { s with tasks := (update_task s.tasks (task.reset_for_retry now)).1 }
      else s

/-! ## The system's event step relation

Each event is one entry into the scheduler's mutable state as wired in
the repository: the timer tick; a worker thread's single completion
report for its dispatched attempt (scheduler.py `run_async_task` invokes
exactly one of `_handle_task_success` / `_handle_task_error`, exactly
once, for a task that was marked Running at dispatch and that nothing
else re-marks while its attempt is alive — hence the side condition that
the task recorded under the reported id, if any, is still Running); the
GUI retry command; and the GUI execute-now command. -/

/-- The events driving the scheduler state. -/
inductive SchedEvent where
  | tick (now : Int)
  | publishResult (tid : String) (res : Option CallbackResult) (now : Int)
  | publishError (tid msg : String) (now : Int)
  | userRetry (tid : String) (now : Int)
  | userExecuteNow (tid : String) (now : Int)

/-- One transition of the scheduler system. -/
inductive SchedStep (cfg : AppConfig) :
    SchedulerState → SchedEvent → SchedulerState → Prop where
  | tick (s : SchedulerState) (now : Int) :
      SchedStep cfg s (.tick now) (check_and_execute_tasks s cfg now)
  | publishResult (s : SchedulerState) (tid : String)
      (res : Option CallbackResult) (now : Int)
      (hrun : ∀ u, get_task_by_id s.tasks tid = some u → u.status = .running) :
      SchedStep cfg s (.publishResult tid res now)
        (handle_task_success s tid res now)
  | publishError (s : SchedulerState) (tid msg : String) (now : Int)
      (hrun : ∀ u, get_task_by_id s.tasks tid = some u → u.status = .running) :
      SchedStep cfg s (.publishError tid msg now)
        (handle_task_error s tid msg now)
  | userRetry (s : SchedulerState) (tid : String) (now : Int) :
      SchedStep cfg s (.userRetry tid now) (retry_task s tid now)
  | userExecuteNow (s : SchedulerState) (tid : String) (now : Int) :
      SchedStep cfg s (.userExecuteNow tid now)
        (execute_task_immediately s tid now).2

/-- Task ids are pairwise distinct (they are fresh uuid4 values at
creation and no operation ever rewrites an id). -/
def NodupIds (tasks : List PublishTask) : Prop :=
  (tasks.map (fun t => t.id)).Nodup

/-- The retry-bound invariant: every stored task respects
`retry_count ≤ max_retries`, and a task still in play (Pending or
Running) has retries left. -/
def RetryInvariant (s : SchedulerState) : Prop :=
  ∀ t ∈ s.tasks, t.retry_count ≤ t.max_retries ∧
    ((t.status = .pending ∨ t.status = .running) →
      t.retry_count < t.max_retries)

/-- The Interval Policy as the spec words it: allowed iff no task has
ever completed, or `now` minus the most recently Completed task's
`updatedTime` is at least the configured minimum interval. -/
def interval_policy_spec (tasks : List PublishTask) (now : Int)
    (minMinutes : Nat) : Bool :=
  match (tasks.filter (fun t => decide (t.status = .completed))).filterMap
      (fun t => t.updated_time) with
  | [] => true
  | x :: xs => decide ((minMinutes : Int) * 60 ≤ now - xs.foldl max x)

/-! ## Helper lemmas about the store -/

theorem mem_update_task {tasks : List PublishTask} {t u : PublishTask}
    (h : u ∈ (update_task tasks t).1) : u = t ∨ u ∈ tasks := by
  induction tasks with
  | nil => simp [update_task] at h
  | cons x xs ih =>
      by_cases hx : x.id = t.id
      · simp [update_task, hx] at h
        rcases h with h | h
        · exact Or.inl h
        · exact Or.inr (List.mem_cons_of_mem _ h)
      · simp [update_task, hx] at h
        rcases h with h | h
        · exact Or.inr (by simp [h])
        · rcases ih h with h' | h'
          · exact Or.inl h'
          · exact Or.inr (List.mem_cons_of_mem _ h')

theorem map_id_update_task (tasks : List PublishTask) (t : PublishTask) :
    ((update_task tasks t).1).map (fun u => u.id) =
      tasks.map (fun u => u.id) := by
  induction tasks with
  | nil => simp [update_task]
  | cons x xs ih =>
      by_cases hx : x.id = t.id
      · simp [update_task, hx]
      · simp [update_task, hx, ih]

theorem mem_update_task_of_ne {tasks : List PublishTask} {t u : PublishTask}
    (hu : u ∈ tasks) (hne : ¬ u.id = t.id) : u ∈ (update_task tasks t).1 := by
  induction tasks with
  | nil => simp at hu
  | cons x xs ih =>
      by_cases hx : x.id = t.id
      · rcases List.mem_cons.mp hu with h | h
        · exact absurd (h ▸ hx) hne
        · simp [update_task, hx]
          exact Or.inr h
      · rcases List.mem_cons.mp hu with h | h
        · simp [update_task, hx, h]
        · simp [update_task, hx]
          exact Or.inr (ih h)

theorem get_update_task_ne {tasks : List PublishTask} {t : PublishTask}
    {tid : String} (hne : ¬ t.id = tid) :
    get_task_by_id (update_task tasks t).1 tid = get_task_by_id tasks tid := by
  induction tasks with
  | nil => simp [update_task]
  | cons x xs ih =>
      by_cases hx : x.id = t.id
      · have hxtid : ¬ x.id = tid := by rw [hx]; exact hne
        simp only [update_task, if_pos hx, get_task_by_id, List.find?]
        simp [hne, hxtid]
      · simp only [update_task, if_neg hx]
        by_cases hxtid : x.id = tid
        · simp [get_task_by_id, List.find?, hxtid]
        · simpa [get_task_by_id, List.find?, hxtid] using ih

theorem get_update_task_self {tasks : List PublishTask} {x y : PublishTask}
    {tid : String} (hget : get_task_by_id tasks tid = some x)
    (hy : y.id = tid) :
    get_task_by_id (update_task tasks y).1 tid = some y := by
  induction tasks with
  | nil => simp [get_task_by_id, List.find?] at hget
  | cons a as ih =>
      by_cases ha : a.id = tid
      · have hay : a.id = y.id := by rw [ha, hy]
        simp [update_task, get_task_by_id, hay, List.find?, hy]
      · have hay : ¬ a.id = y.id := by rw [hy]; exact ha
        have hget' : get_task_by_id as tid = some x := by
          simpa [get_task_by_id, List.find?, ha] using hget
        simpa [update_task, get_task_by_id, List.find?, hay, ha] using ih hget'

theorem get_task_by_id_mem {tasks : List PublishTask} {tid : String}
    {x : PublishTask} (h : get_task_by_id tasks tid = some x) :
    x ∈ tasks ∧ x.id = tid := by
  refine ⟨List.mem_of_find?_eq_some h, ?_⟩
  have := List.find?_some h
  simpa using this

theorem nodupIds_cons {x : PublishTask} {xs : List PublishTask}
    (h : NodupIds (x :: xs)) :
    NodupIds xs ∧ ∀ y ∈ xs, ¬ y.id = x.id := by
  rw [NodupIds, List.map_cons, List.nodup_cons] at h
  exact ⟨h.2, fun y hy he => h.1 (List.mem_map.mpr ⟨y, hy, he⟩)⟩

theorem eq_of_mem_of_id_eq {tasks : List PublishTask} {t1 t2 : PublishTask}
    (hnd : NodupIds tasks) (h1 : t1 ∈ tasks) (h2 : t2 ∈ tasks)
    (hid : t1.id = t2.id) : t1 = t2 := by
  induction tasks with
  | nil => simp at h1
  | cons x xs ih =>
      have hnd' := nodupIds_cons hnd
      rcases List.mem_cons.mp h1 with h1' | h1' <;>
        rcases List.mem_cons.mp h2 with h2' | h2'
      · rw [h1', h2']
      · exact absurd (by rw [← hid, h1']) (hnd'.2 t2 h2')
      · exact absurd (by rw [hid, h2']) (hnd'.2 t1 h1')
      · exact ih hnd'.1 h1' h2'

theorem get_eq_some_of_mem_nodup {tasks : List PublishTask} {t : PublishTask}
    (hnd : NodupIds tasks) (ht : t ∈ tasks) :
    get_task_by_id tasks t.id = some t := by
  induction tasks with
  | nil => simp at ht
  | cons x xs ih =>
      have hnd' := nodupIds_cons hnd
      rcases List.mem_cons.mp ht with h | h
      · simp [get_task_by_id, List.find?, h]
      · have hne : ¬ x.id = t.id := fun he => hnd'.2 t h (he.symm)
        simpa [get_task_by_id, List.find?, hne] using ih hnd'.1 h

/-! ## Helper lemmas about the interval sort and fold -/

theorem mem_insertUpdatedDesc {a t : PublishTask} {l : List PublishTask} :
    a ∈ insertUpdatedDesc t l ↔ a = t ∨ a ∈ l := by
  induction l with
  | nil => simp [insertUpdatedDesc]
  | cons y ys ih =>
      by_cases hy : updatedKey y ≤ updatedKey t
      · simp [insertUpdatedDesc, hy]
      · simp [insertUpdatedDesc, hy, ih]
        tauto

theorem mem_sortUpdatedDesc {a : PublishTask} {l : List PublishTask} :
    a ∈ sortUpdatedDesc l ↔ a ∈ l := by
  induction l with
  | nil => simp [sortUpdatedDesc]
  | cons x xs ih =>
      simp [sortUpdatedDesc, mem_insertUpdatedDesc, ih]

theorem pairwise_insertUpdatedDesc {t : PublishTask} {l : List PublishTask}
    (h : l.Pairwise (fun a b => updatedKey b ≤ updatedKey a)) :
    (insertUpdatedDesc t l).Pairwise
      (fun a b => updatedKey b ≤ updatedKey a) := by
  induction l with
  | nil => simp [insertUpdatedDesc]
  | cons y ys ih =>
      rcases List.pairwise_cons.mp h with ⟨hy, hys⟩
      by_cases hle : updatedKey y ≤ updatedKey t
      · simp only [insertUpdatedDesc, if_pos hle]
        refine List.pairwise_cons.mpr ⟨?_, h⟩
        intro b hb
        rcases List.mem_cons.mp hb with hb | hb
        · rw [hb]; exact hle
        · exact le_trans (hy b hb) hle
      · simp only [insertUpdatedDesc, if_neg hle]
        refine List.pairwise_cons.mpr ⟨?_, ih hys⟩
        intro b hb
        rcases mem_insertUpdatedDesc.mp hb with hb | hb
        · rw [hb]
          exact le_of_lt (lt_of_not_le hle)
        · exact hy b hb

theorem pairwise_sortUpdatedDesc (l : List PublishTask) :
    (sortUpdatedDesc l).Pairwise (fun a b => updatedKey b ≤ updatedKey a) := by
  induction l with
  | nil => simp [sortUpdatedDesc]
  | cons x xs ih => exact pairwise_insertUpdatedDesc ih

theorem le_foldl_max (x : Int) (xs : List Int) : x ≤ xs.foldl max x := by
  induction xs generalizing x with
  | nil => simp
  | cons y ys ih =>
      calc x ≤ max x y := le_max_left x y
        _ ≤ ys.foldl max (max x y) := ih (max x y)

theorem mem_le_foldl_max {v : Int} {xs : List Int} (x : Int) (hv : v ∈ xs) :
    v ≤ xs.foldl max x := by
  induction xs generalizing x with
  | nil => simp at hv
  | cons y ys ih =>
      rcases List.mem_cons.mp hv with h | h
      · calc v ≤ max x y := h ▸ le_max_right x y
          _ ≤ ys.foldl max (max x y) := le_foldl_max _ _
      · exact ih (max x y) h

theorem foldl_max_mem (x : Int) (xs : List Int) :
    xs.foldl max x ∈ x :: xs := by
  induction xs generalizing x with
  | nil => simp
  | cons y ys ih =>
      have h := ih (max x y)
      rcases max_choice x y with hm | hm <;>
        · rw [hm] at h
          simp only [List.foldl_cons]
          rw [hm]
          rcases List.mem_cons.mp h with h' | h' <;> simp [h']

theorem update_task_append_first {pre post : List PublishTask}
    {x t : PublishTask} (hx : x.id = t.id)
    (hpre : ∀ y ∈ pre, ¬ y.id = t.id) :
    update_task (pre ++ x :: post) t = (pre ++ t :: post, true) := by
  induction pre with
  | nil => simp [update_task, hx]
  | cons a as ih =>
      have ha : ¬ a.id = t.id := hpre a (List.mem_cons_self a as)
      have ih' := ih (fun y hy => hpre y (List.mem_cons_of_mem a hy))
      simp [update_task, ha, ih']

theorem get_task_by_id_append_first {pre post : List PublishTask}
    {x : PublishTask} {tid : String} (hx : x.id = tid)
    (hpre : ∀ y ∈ pre, ¬ y.id = tid) :
    get_task_by_id (pre ++ x :: post) tid = some x := by
  induction pre with
  | nil => simp [get_task_by_id, List.find?, hx]
  | cons a as ih =>
      have ha : ¬ a.id = tid := hpre a (List.mem_cons_self a as)
      have ih' := ih (fun y hy => hpre y (List.mem_cons_of_mem a hy))
      simpa [get_task_by_id, List.find?, ha] using ih'

/-! ## Claim theorems -/

/-- C6: the Retry Policy equals its reference definition — `can_retry`
holds exactly on Failed tasks with `retry_count < max_retries`, and
`get_failed_retry_tasks` returns exactly the stored tasks satisfying
that predicate. -/
theorem c6_retry_policy :
    (∀ t : PublishTask,
        can_retry t = true ↔
          t.status = .failed ∧ t.retry_count < t.max_retries) ∧
    (∀ (tasks : List PublishTask) (t : PublishTask),
        t ∈ get_failed_retry_tasks tasks ↔
          t ∈ tasks ∧ t.status = .failed ∧
            t.retry_count < t.max_retries) := by
  constructor
  · intro t
    simp [can_retry]
  · intro tasks t
    simp [get_failed_retry_tasks, List.mem_filter, can_retry]

/-- A Failed task that is not terminal (`retry_count < max_retries`) but
has an old `updated_time`: the retention sweep deletes it, refuting the
claim that only terminal tasks are deleted. -/
def cexOldFailedTask : PublishTask :=
  { id := "cex8", title := "t", content := "c", images := [], topics := [],
    publish_time := 0, status := .failed, created_time := some 0,
    updated_time := some 0, result_message := some "err",
    retry_count := 0, max_retries := 3 }

/-- C8 counterexample: `cleanup_old_tasks` deletes an old Failed task
with `retry_count = 0 < max_retries = 3`, which is retry-eligible, not
terminal — contradicting "deletes exactly the tasks that are in terminal
state". -/
theorem c8_cleanup_counterexample :
    cleanup_old_tasks [cexOldFailedTask] 1000 10 = [] ∧
    cexOldFailedTask.status = .failed ∧
    cexOldFailedTask.retry_count < cexOldFailedTask.max_retries ∧
    can_retry cexOldFailedTask = true := by
  refine ⟨rfl, rfl, by decide, rfl⟩

/-- C8 (amended): the retention sweep keeps exactly the tasks that are
Pending or Running, or whose `updated_time` is set and strictly newer
than the cutoff `now - keepDuration`; equivalently it deletes exactly
the Completed or Failed tasks — regardless of their retry count — whose
`updated_time` is missing or not newer than the cutoff.  In particular
it never deletes a Pending or Running task, but it also deletes old
Failed tasks that are still retry-eligible. -/
theorem c8_cleanup_amended (tasks : List PublishTask)
    (now keepDuration : Int) (t : PublishTask) :
    t ∈ cleanup_old_tasks tasks now keepDuration ↔
      t ∈ tasks ∧ (t.status = .pending ∨ t.status = .running ∨
        ∃ u, t.updated_time = some u ∧ now - keepDuration < u) := by
  simp only [cleanup_old_tasks, List.mem_filter]
  cases hu : t.updated_time with
  | none => simp [hu]
  | some u => simp [hu]; tauto

/-- Two distinct tasks sharing the id "dup". -/
def dupTaskA : PublishTask :=
  { id := "dup", title := "first", content := "c", images := [],
    topics := [], publish_time := 0, status := .pending,
    created_time := some 0, updated_time := some 0,
    result_message := some "", retry_count := 0, max_retries := 3 }

/-- Second task with the same id as `dupTaskA` but a different title. -/
def dupTaskB : PublishTask :=
  { dupTaskA with title := "second" }

/-- C10: `add_task` returns `True` unconditionally and just appends (so
adding two distinct tasks with the same id leaves both in the store);
`update_task` replaces exactly the first id match and returns `True`;
`get_task_by_id` returns the first match; `delete_task` removes every
task with the id. -/
theorem c10_storage_model :
    (∀ (tasks : List PublishTask) (t : PublishTask),
        (add_task tasks t).2 = true ∧ (add_task tasks t).1 = tasks ++ [t]) ∧
    (dupTaskA ≠ dupTaskB ∧ dupTaskA.id = dupTaskB.id ∧
      dupTaskA ∈ (add_task (add_task [] dupTaskA).1 dupTaskB).1 ∧
      dupTaskB ∈ (add_task (add_task [] dupTaskA).1 dupTaskB).1) ∧
    (∀ (pre post : List PublishTask) (x t : PublishTask),
        x.id = t.id → (∀ y ∈ pre, ¬ y.id = t.id) →
        update_task (pre ++ x :: post) t = (pre ++ t :: post, true)) ∧
    (∀ (pre post : List PublishTask) (x : PublishTask) (tid : String),
        x.id = tid → (∀ y ∈ pre, ¬ y.id = tid) →
        get_task_by_id (pre ++ x :: post) tid = some x) ∧
    (∀ (tasks : List PublishTask) (tid : String) (y : PublishTask),
        y ∈ (delete_task tasks tid).1 ↔ y ∈ tasks ∧ ¬ y.id = tid) := by
  refine ⟨fun tasks t => ⟨rfl, rfl⟩, ⟨by decide, rfl, ?_, ?_⟩,
    fun pre post x t hx hpre => update_task_append_first hx hpre,
    fun pre post x tid hx hpre => get_task_by_id_append_first hx hpre,
    fun tasks tid y => ?_⟩
  · simp [add_task]
  · simp [add_task]
  · simp [delete_task, List.mem_filter]

/-- C10 witness: the first-match behaviours of `update_task` and
`get_task_by_id` evaluated at a concrete store. -/
theorem c10_storage_model_witness :
    update_task [dupTaskA] dupTaskB = ([dupTaskB], true) ∧
    get_task_by_id [dupTaskA] "dup" = some dupTaskA := by
  constructor
  · have h := c10_storage_model.2.2.1 [] [] dupTaskA dupTaskB rfl
      (by intro y hy; simp at hy)
    simpa using h
  · have h := c10_storage_model.2.2.2.1 [] [] dupTaskA "dup" rfl
      (by intro y hy; simp at hy)
    simpa using h

/-- C9: the serialization round-trip preserves every field except
`updated_time`: `from_dict (to_dict t)` parses back all fields, but the
dataclass construction re-runs `__post_init__`, which unconditionally
overwrites `updated_time` with the clock, discarding the serialized
value (`created_time`, being set on any constructed task, survives). -/
theorem c9_roundtrip (t : PublishTask) (now : Int)
    (hc : t.created_time.isSome = true) :
    ∃ r, PublishTask.from_dict t.to_dict now = some r ∧
      r.id = t.id ∧ r.title = t.title ∧ r.content = t.content ∧
      r.images = t.images ∧ r.topics = t.topics ∧
      r.publish_time = t.publish_time ∧ r.status = t.status ∧
      r.created_time = t.created_time ∧
      r.result_message = t.result_message ∧
      r.retry_count = t.retry_count ∧ r.max_retries = t.max_retries ∧
      r.updated_time = some now ∧
      (t.updated_time ≠ some now → r.updated_time ≠ t.updated_time) := by
  obtain ⟨c, hcv⟩ := Option.isSome_iff_exists.mp hc
  have hval : TaskStatus.ofValue t.status.value = some t.status := by
    cases t.status <;> rfl
  refine ⟨PublishTask.post_init
      { id := t.id, title := t.title, content := t.content,
        images := t.images, topics := t.topics,
        publish_time := t.publish_time, status := t.status,
        created_time := t.created_time, updated_time := t.updated_time,
        result_message := t.result_message, retry_count := t.retry_count,
        max_retries := t.max_retries } now,
    ?_, rfl, rfl, rfl, rfl, rfl, rfl, rfl, ?_, rfl, rfl, rfl, rfl, ?_⟩
  · simp only [PublishTask.from_dict, PublishTask.to_dict, hval]
  · simp [PublishTask.post_init, hcv]
  · intro hne h
    simp only [PublishTask.post_init] at h
    exact hne h.symm

/-- Concrete task for the C9 witness. -/
def rtTask : PublishTask :=
  { id := "w9", title := "标题", content := "正文", images := ["a.png"],
    topics := ["tag"], publish_time := 7, status := .failed,
    created_time := some 1, updated_time := some 2,
    result_message := some "msg", retry_count := 2, max_retries := 3 }

/-- C9 witness: the round-trip theorem applied to a concrete task. -/
theorem c9_roundtrip_witness :
    ∃ r, PublishTask.from_dict rtTask.to_dict 5 = some r ∧
      r.id = rtTask.id ∧ r.title = rtTask.title ∧ r.content = rtTask.content ∧
      r.images = rtTask.images ∧ r.topics = rtTask.topics ∧
      r.publish_time = rtTask.publish_time ∧ r.status = rtTask.status ∧
      r.created_time = rtTask.created_time ∧
      r.result_message = rtTask.result_message ∧
      r.retry_count = rtTask.retry_count ∧ r.max_retries = rtTask.max_retries ∧
      r.updated_time = some 5 ∧
      (rtTask.updated_time ≠ some 5 → r.updated_time ≠ rtTask.updated_time) :=
  c9_roundtrip rtTask 5 (by decide)

/-- C7: when no stored task is due (Pending with `publish_time ≤ now`)
and no Failed task is retry-eligible, the tick returns with the state
unchanged: no task is touched and no guard entry is acquired. -/
theorem c7_tick_noop (s : SchedulerState) (cfg : AppConfig) (now : Int)
    (h : ∀ t ∈ s.tasks,
        is_ready_to_execute t now = false ∧ can_retry t = false) :
    check_and_execute_tasks s cfg now = s := by
  by_cases hr : s.is_running = false
  · simp [check_and_execute_tasks, hr]
  · have hready : get_ready_tasks s.tasks now = [] := by
      refine List.filter_eq_nil_iff.mpr ?_
      intro t ht
      simp [(h t ht).1]
    have hretry : get_failed_retry_tasks s.tasks = [] := by
      refine List.filter_eq_nil_iff.mpr ?_
      intro t ht
      simp [(h t ht).2]
    simp [check_and_execute_tasks, hr, hready, hretry]

/-- Concrete idle state for the C7 witness: one future Pending task. -/
def idleState : SchedulerState :=
  { is_running := true,
    tasks := [{ id := "w7", title := "t", content := "c", images := [],
                topics := [], publish_time := 100, status := .pending,
                created_time := some 0, updated_time := some 0,
                result_message := some "", retry_count := 0,
                max_retries := 3 }],
    executing_tasks := ∅ }

/-- C7 witness: the no-op tick theorem applied to a concrete state whose
only task is not yet due. -/
theorem c7_tick_noop_witness :
    check_and_execute_tasks idleState {} 50 = idleState :=
  c7_tick_noop idleState {} 50 (by decide)

/-- C5: with the scheduler running and the task present,
`execute_task_immediately` returns `False` and leaves the state
untouched whenever the guard set is non-empty or the task is not
Pending; otherwise it returns `True` and dispatches at once — marking
the task Running and acquiring the guard — without ever consulting
`_check_publish_interval` (no interval hypothesis appears below), while
the guard check is never bypassed. -/
theorem c5_execute_now (s : SchedulerState) (tid : String) (now : Int)
    (task : PublishTask) (hrun : s.is_running = true)
    (hget : get_task_by_id s.tasks tid = some task) :
    ((s.executing_tasks ≠ ∅ ∨ task.status ≠ .pending) →
        execute_task_immediately s tid now = (false, s)) ∧
    (s.executing_tasks = ∅ → task.status = .pending →
        execute_task_immediately s tid now =
          (true,
            { s with
              tasks := (update_task s.tasks (task.mark_running now)).1,
              executing_tasks := insert task.id s.executing_tasks })) := by
  have hrf : ¬ s.is_running = false := by simp [hrun]
  constructor
  · intro hcase
    by_cases hex : s.executing_tasks = ∅
    · have hst : task.status ≠ .pending := by
        rcases hcase with hc | hc
        · exact absurd hex hc
        · exact hc
      simp [execute_task_immediately, hrf, hex, hget, hst]
    · simp [execute_task_immediately, hrf, hex, hget]
  · intro hex hst
    have hmem : task.id ∉ s.executing_tasks := by simp [hex]
    have hcard : ¬ 0 < s.executing_tasks.card := by simp [hex]
    simp [execute_task_immediately, hrf, hex, hget, hst, hmem,
      execute_task_async, hcard]

/-- Concrete due Pending task for the C5 witness. -/
def readyTask : PublishTask :=
  { id := "w5", title := "t", content := "c", images := [], topics := [],
    publish_time := 0, status := .pending, created_time := some 0,
    updated_time := some 0, result_message := some "", retry_count := 0,
    max_retries := 3 }

/-- Concrete state for the C5 witness: one due Pending task, guard free. -/
def readyState : SchedulerState :=
  { is_running := true, tasks := [readyTask], executing_tasks := ∅ }

/-- C5 witness: the execute-now theorem at a concrete runnable state,
exercising the dispatch branch. -/
theorem c5_execute_now_witness :
    execute_task_immediately readyState "w5" 9 =
      (true,
        { readyState with
          tasks := (update_task readyState.tasks
            (readyTask.mark_running 9)).1,
          executing_tasks := insert "w5" readyState.executing_tasks }) := by
  have h := (c5_execute_now readyState "w5" 9 readyTask
    rfl (by decide)).2 rfl rfl
  simpa [readyTask] using h

/-- C4: the Interval Policy is the pure decision the spec states —
`_check_publish_interval` returns `True` iff no task has ever completed,
or `now` minus the most recently Completed task's `updated_time` is at
least `min_publish_interval_minutes`.  It reads only the store contents
and the clock (both are plain arguments here) and mutates nothing (it is
a function to `Bool`).  The hypothesis that Completed tasks carry an
`updated_time` always holds for constructed tasks, since
`__post_init__` and every `mark_*` transition set the field. -/
theorem c4_interval_policy (tasks : List PublishTask) (now : Int)
    (minMinutes : Nat)
    (h : ∀ t ∈ tasks, t.status = .completed → t.updated_time.isSome = true) :
    check_publish_interval tasks now minMinutes =
      interval_policy_spec tasks now minMinutes := by
  by_cases hemp :
      (tasks.filter (fun t => decide (t.status = .completed))).isEmpty
  · have hnil : tasks.filter (fun t => decide (t.status = .completed)) = [] :=
      List.isEmpty_iff.mp hemp
    simp [check_publish_interval, interval_policy_spec, hnil]
  · cases hs : sortUpdatedDesc
        (tasks.filter (fun t => decide (t.status = .completed))) with
    | nil =>
        exfalso
        have hne2 : tasks.filter
            (fun t => decide (t.status = TaskStatus.completed)) ≠ [] := by
          intro hnil
          exact hemp (by rw [hnil]; rfl)
        obtain ⟨c, hcmem⟩ := List.exists_mem_of_ne_nil _ hne2
        have hcs := mem_sortUpdatedDesc.mpr hcmem
        rw [hs] at hcs
        simp at hcs
    | cons hd tl =>
        have hhdmem : hd ∈ tasks.filter (fun t => decide (t.status = .completed)) :=
          mem_sortUpdatedDesc.mp (hs ▸ List.mem_cons_self hd tl)
        have hhd : hd ∈ tasks ∧ hd.status = .completed := by
          simpa using List.mem_filter.mp hhdmem
        obtain ⟨u, hu⟩ := Option.isSome_iff_exists.mp (h hd hhd.1 hhd.2)
        have hmax : ∀ c ∈ tasks.filter (fun t => decide (t.status = .completed)),
            updatedKey c ≤ updatedKey hd := by
          intro c hcmem
          have hcs := mem_sortUpdatedDesc.mpr hcmem
          rw [hs] at hcs
          rcases List.mem_cons.mp hcs with h' | h'
          · rw [h']
          · have hp := pairwise_sortUpdatedDesc
              (tasks.filter (fun t => decide (t.status = .completed)))
            rw [hs] at hp
            exact (List.pairwise_cons.mp hp).1 c h'
        have huT : u ∈ (tasks.filter
            (fun t => decide (t.status = .completed))).filterMap
              (fun t => t.updated_time) :=
          List.mem_filterMap.mpr ⟨hd, hhdmem, hu⟩
        have hleT : ∀ v ∈ (tasks.filter
            (fun t => decide (t.status = .completed))).filterMap
              (fun t => t.updated_time), v ≤ u := by
          intro v hv
          obtain ⟨c, hcmem, hcv⟩ := List.mem_filterMap.mp hv
          have := hmax c hcmem
          simpa [updatedKey, hcv, hu] using this
        cases hTc : (tasks.filter
            (fun t => decide (t.status = .completed))).filterMap
              (fun t => t.updated_time) with
        | nil => rw [hTc] at huT; simp at huT
        | cons x xs =>
            have hfold : xs.foldl max x = u := by
              refine le_antisymm ?_ ?_
              · refine hleT _ ?_
                rw [hTc]
                exact foldl_max_mem x xs
              · rw [hTc] at huT
                rcases List.mem_cons.mp huT with h' | h'
                · rw [h']
                  exact le_foldl_max x xs
                · exact mem_le_foldl_max x h'
            simp only [check_publish_interval, interval_policy_spec,
              hemp, Bool.false_eq_true, if_false, hs, hu, hTc, hfold]
            by_cases hlt : now - u < (minMinutes : Int) * 60
            · simp [hlt, not_le.mpr hlt]
            · simp [hlt, not_lt.mp hlt]

/-- Concrete store for the C4 witness: two Completed tasks and one
Pending task. -/
def intervalTasks : List PublishTask :=
  [{ id := "i1", title := "t1", content := "c", images := [], topics := [],
     publish_time := 0, status := .completed, created_time := some 0,
     updated_time := some 100, result_message := some "done",
     retry_count := 0, max_retries := 3 },
   { id := "i2", title := "t2", content := "c", images := [], topics := [],
     publish_time := 0, status := .completed, created_time := some 0,
     updated_time := some 400, result_message := some "done",
     retry_count := 0, max_retries := 3 },
   { id := "i3", title := "t3", content := "c", images := [], topics := [],
     publish_time := 0, status := .pending, created_time := some 0,
     updated_time := none, result_message := some "", retry_count := 0,
     max_retries := 3 }]

/-- C4 witness: the equivalence evaluated on a concrete store (the most
recent completion is at 400, `now` is 500, interval 5 minutes = 300, so
both sides refuse). -/
theorem c4_interval_policy_witness :
    check_publish_interval intervalTasks 500 5 =
      interval_policy_spec intervalTasks 500 5 ∧
    check_publish_interval intervalTasks 500 5 = false := by
  refine ⟨c4_interval_policy intervalTasks 500 5 (by decide), by decide⟩

/-- A task the timeout watchdog has already resolved: Failed with the
watchdog's termination message and no guard entry left. -/
def staleTask : PublishTask :=
  { id := "a", title := "t", content := "c", images := [], topics := [],
    publish_time := 0, status := .failed, created_time := some 0,
    updated_time := some 10, result_message := some "进程被终止: 超时",
    retry_count := 1, max_retries := 3 }

/-- State after the watchdog resolved `staleTask`. -/
def staleState : SchedulerState :=
  { is_running := true, tasks := [staleTask], executing_tasks := ∅ }

/-- C2 counterexample: a late success callback for the superseded attempt
of a task the watchdog already marked Failed DOES alter the task — it is
re-marked Completed and its `result_message` is overwritten, refuting
"does not alter the task's status or resultMessage". -/
theorem c2_stale_counterexample :
    staleTask.status = .failed ∧
    (get_task_by_id (handle_task_success staleState "a"
        (some { success := true, message := some "发布成功" }) 99).tasks
        "a").map (fun t => t.status) = some .completed ∧
    (get_task_by_id (handle_task_success staleState "a"
        (some { success := true, message := some "发布成功" }) 99).tasks
        "a").map (fun t => t.result_message) = some (some "发布成功") := by
  refine ⟨rfl, rfl, rfl⟩

/-- C2 (corrected): the code carries no attempt-generation token at all,
so a stale completion callback is not discarded: whenever
`_handle_task_success` receives a success result for a task currently
recorded as Failed (e.g. already resolved by the timeout watchdog), it
re-marks that task Completed with the callback's message and stores it. -/
theorem c2_stale_callback_applied (s : SchedulerState) (tid : String)
    (t : PublishTask) (r : CallbackResult) (now : Int)
    (hget : get_task_by_id s.tasks tid = some t)
    (hfail : t.status = .failed) (hsucc : r.success = true) :
    get_task_by_id (handle_task_success s tid (some r) now).tasks tid =
      some (t.mark_completed (r.message.getD "发布成功") now) ∧
    (t.mark_completed (r.message.getD "发布成功") now).status =
      .completed ∧
    (t.mark_completed (r.message.getD "发布成功") now).status ≠ t.status := by
  have hid : t.id = tid := (get_task_by_id_mem hget).2
  refine ⟨?_, rfl, ?_⟩
  · simp only [handle_task_success, hget, hsucc, if_true]
    exact get_update_task_self hget
      (by simp [PublishTask.mark_completed, hid])
  · rw [hfail]
    simp [PublishTask.mark_completed]

/-- C2 witness: the amended theorem evaluated at the concrete stale
state. -/
theorem c2_stale_callback_applied_witness :
    get_task_by_id (handle_task_success staleState "a"
        (some { success := true, message := some "发布成功" }) 99).tasks "a" =
      some (staleTask.mark_completed "发布成功" 99) ∧
    (staleTask.mark_completed "发布成功" 99).status = .completed ∧
    (staleTask.mark_completed "发布成功" 99).status ≠ staleTask.status := by
  have h := c2_stale_callback_applied staleState "a" staleTask
    { success := true, message := some "发布成功" } 99 (by rfl) rfl rfl
  simpa using h

/-- C1 (amended): on a tick over a state whose store holds exactly two
due Pending tasks (distinct ids) with no attempt in flight, the first
task transitions to Running and acquires the guard — but the second is
NOT left Pending: `_execute_task_async` treats the in-flight guard as a
task failure, marking the contender Failed with the message
"已有任务在执行中，请等待完成" and incrementing its `retry_count` (it
stays retry-eligible for later ticks while below `max_retries`). -/
theorem c1_tick_two_due (cfg : AppConfig) (t1 t2 : PublishTask) (now : Int)
    (hid : ¬ t1.id = t2.id)
    (h1s : t1.status = .pending) (h1t : t1.publish_time ≤ now)
    (h2s : t2.status = .pending) (h2t : t2.publish_time ≤ now) :
    check_and_execute_tasks ⟨true, [t1, t2], ∅⟩ cfg now =
      ⟨true, [t1.mark_running now,
              t2.mark_failed "已有任务在执行中，请等待完成" now],
        {t1.id}⟩ := by
  have hr1 : is_ready_to_execute t1 now = true := by
    simp [is_ready_to_execute, h1s, h1t]
  have hr2 : is_ready_to_execute t2 now = true := by
    simp [is_ready_to_execute, h2s, h2t]
  have hc1 : can_retry t1 = false := by simp [can_retry, h1s]
  have hc2 : can_retry t2 = false := by simp [can_retry, h2s]
  have hready : get_ready_tasks [t1, t2] now = [t1, t2] := by
    simp [get_ready_tasks, hr1, hr2]
  have hretry : get_failed_retry_tasks [t1, t2] = [] := by
    simp [get_failed_retry_tasks, hc1, hc2]
  have hint1 : check_publish_interval [t1, t2] now
      cfg.min_publish_interval_minutes = true := by
    have hcomp : List.filter
        (fun t => decide (t.status = TaskStatus.completed)) [t1, t2] = [] := by
      simp [h1s, h2s]
    simp [check_publish_interval, hcomp]
  have hint2 : check_publish_interval [t1.mark_running now, t2] now
      cfg.min_publish_interval_minutes = true := by
    have hcomp : List.filter
        (fun t => decide (t.status = TaskStatus.completed))
        [t1.mark_running now, t2] = [] := by
      simp [PublishTask.mark_running, h2s]
    simp [check_publish_interval, hcomp]
  have hne21 : ¬ t2.id = t1.id := fun h => hid h.symm
  have hupd1 : update_task [t1, t2] (t1.mark_running now) =
      ([t1.mark_running now, t2], true) := by
    simp only [update_task]
    rw [if_pos (show t1.id = (t1.mark_running now).id from rfl)]
  have hne12 : ¬ (t1.mark_running now).id = t2.id := hid
  have hget2 : get_task_by_id [t1.mark_running now, t2] t2.id = some t2 := by
    simp [get_task_by_id, List.find?, hne12]
  have hne12' : ¬ (t1.mark_running now).id =
      (t2.mark_failed "已有任务在执行中，请等待完成" now).id := hid
  have hupd2 : update_task [t1.mark_running now, t2]
      (t2.mark_failed "已有任务在执行中，请等待完成" now) =
      ([t1.mark_running now,
        t2.mark_failed "已有任务在执行中，请等待完成" now], true) := by
    simp only [update_task]
    rw [if_neg hne12',
      if_pos (show t2.id =
        (t2.mark_failed "已有任务在执行中，请等待完成" now).id from rfl)]
  have hnotmem2 : t2.id ∉ insert t1.id (∅ : Finset String) := by
    simp only [Finset.mem_insert, Finset.not_mem_empty, or_false]
    exact hne21
  have herase : (insert t1.id (∅ : Finset String)).erase t2.id =
      {t1.id} := by
    rw [Finset.erase_eq_of_not_mem hnotmem2]
    simp
  simp [check_and_execute_tasks, tick_loop, execute_task_async,
    handle_task_error, hready, hretry, hint1, hint2, hupd1, hget2, hupd2,
    herase, hne21, Finset.card_insert_of_not_mem]

/-- First concrete due task of the C1 scenario. -/
def twoDueA : PublishTask :=
  { id := "ta", title := "first", content := "c", images := [],
    topics := [], publish_time := 0, status := .pending,
    created_time := some 0, updated_time := some 0,
    result_message := some "", retry_count := 0, max_retries := 3 }

/-- Second concrete due task of the C1 scenario. -/
def twoDueB : PublishTask :=
  { twoDueA with id := "tb", title := "second" }

/-- C1 counterexample: with both concrete tasks due and no attempt in
flight, one tick leaves the second task Failed with `retry_count = 1`
and an error message — not Pending with its fields unchanged, and guard
contention did change the contending task's status. -/
theorem c1_tick_counterexample :
    (get_task_by_id (check_and_execute_tasks ⟨true, [twoDueA, twoDueB], ∅⟩
        {} 5).tasks "tb").map (fun t => t.status) = some .failed ∧
    (get_task_by_id (check_and_execute_tasks ⟨true, [twoDueA, twoDueB], ∅⟩
        {} 5).tasks "tb").map (fun t => t.retry_count) = some 1 ∧
    twoDueB.status = .pending ∧ twoDueB.retry_count = 0 := by
  refine ⟨rfl, rfl, rfl, rfl⟩

/-- C1 witness: the amended two-due-tasks theorem evaluated at the
concrete scenario. -/
theorem c1_tick_two_due_witness :
    check_and_execute_tasks ⟨true, [twoDueA, twoDueB], ∅⟩ {} 5 =
      ⟨true, [twoDueA.mark_running 5,
              twoDueB.mark_failed "已有任务在执行中，请等待完成" 5],
        {"ta"}⟩ := by
  have h := c1_tick_two_due {} twoDueA twoDueB 5 (by decide) rfl
    (by decide) rfl (by decide)
  simpa [twoDueA] using h

/-! ## Retry-bound invariant preservation (claim C3) -/

theorem nodupIds_update {tasks : List PublishTask} (t : PublishTask)
    (h : NodupIds tasks) : NodupIds (update_task tasks t).1 := by
  show ((update_task tasks t).1.map (fun u => u.id)).Nodup
  rw [map_id_update_task]
  exact h

theorem retryInv_handle_error {s : SchedulerState} {tid msg : String}
    {now : Int} (hnd : NodupIds s.tasks) (hinv : RetryInvariant s)
    (hcase : ∀ u, get_task_by_id s.tasks tid = some u →
      u.retry_count < u.max_retries) :
    RetryInvariant (handle_task_error s tid msg now) ∧
      NodupIds (handle_task_error s tid msg now).tasks := by
  cases hget : get_task_by_id s.tasks tid with
  | none =>
      simp only [handle_task_error, hget]
      exact ⟨hinv, hnd⟩
  | some u =>
      have hu := hcase u hget
      simp only [handle_task_error, hget]
      constructor
      · intro t ht
        rcases mem_update_task ht with h' | h'
        · subst h'
          refine ⟨Nat.succ_le_of_lt hu, ?_⟩
          intro hcontra
          rcases hcontra with hcontra | hcontra <;>
            simp [PublishTask.mark_failed] at hcontra
        · exact hinv t h'
      · exact nodupIds_update _ hnd

theorem retryInv_dispatch {s : SchedulerState} {task : PublishTask}
    {now : Int} (hnd : NodupIds s.tasks) (hinv : RetryInvariant s)
    (hlt : task.retry_count < task.max_retries) :
    RetryInvariant
      { s with tasks := (update_task s.tasks (task.mark_running now)).1,
               executing_tasks := insert task.id s.executing_tasks } ∧
      NodupIds (update_task s.tasks (task.mark_running now)).1 := by
  constructor
  · intro t ht
    rcases mem_update_task ht with h' | h'
    · subst h'
      exact ⟨le_of_lt hlt, fun _ => hlt⟩
    · exact hinv t h'
  · exact nodupIds_update _ hnd

theorem retryInv_execute_async {s : SchedulerState} {task : PublishTask}
    {now : Int} (hnd : NodupIds s.tasks) (hinv : RetryInvariant s)
    (hlt : task.retry_count < task.max_retries)
    (hget : get_task_by_id s.tasks task.id = some task) :
    RetryInvariant (execute_task_async s task now) ∧
      NodupIds (execute_task_async s task now).tasks := by
  by_cases hc : 0 < s.executing_tasks.card
  · simp only [execute_task_async, if_pos hc]
    refine retryInv_handle_error hnd hinv ?_
    intro u hu
    rw [hget] at hu
    cases hu
    exact hlt
  · simp only [execute_task_async, if_neg hc]
    exact retryInv_dispatch hnd hinv hlt

theorem get_execute_async_ne {s : SchedulerState} {task : PublishTask}
    {now : Int} {tid : String} (hne : ¬ task.id = tid) :
    get_task_by_id (execute_task_async s task now).tasks tid =
      get_task_by_id s.tasks tid := by
  by_cases hc : 0 < s.executing_tasks.card
  · simp only [execute_task_async, if_pos hc, handle_task_error]
    cases hget : get_task_by_id s.tasks task.id with
    | none => rfl
    | some u =>
        have hu : u.id = task.id := (get_task_by_id_mem hget).2
        have hmu : ¬ (u.mark_failed "已有任务在执行中，请等待完成" now).id =
            tid := by
          rw [show (u.mark_failed "已有任务在执行中，请等待完成" now).id =
            u.id from rfl, hu]
          exact hne
        exact get_update_task_ne hmu
  · simp only [execute_task_async, if_neg hc]
    exact get_update_task_ne
      (show ¬ (task.mark_running now).id = tid from hne)

theorem tick_loop_retryInv (cfg : AppConfig) (now : Int) :
    ∀ (L : List PublishTask) (s : SchedulerState),
      NodupIds s.tasks → RetryInvariant s →
      (∀ task ∈ L, task.retry_count < task.max_retries ∧
        get_task_by_id s.tasks task.id = some task) →
      (L.map (fun t => t.id)).Nodup →
      RetryInvariant (tick_loop cfg now s L) ∧
        NodupIds (tick_loop cfg now s L).tasks := by
  intro L
  induction L with
  | nil =>
      intro s hnd hinv _ _
      exact ⟨hinv, hnd⟩
  | cons task rest ih =>
      intro s hnd hinv hfacts hLnd
      have hfact := hfacts task (List.mem_cons_self task rest)
      have hrest : ∀ u ∈ rest, u.retry_count < u.max_retries ∧
          get_task_by_id s.tasks u.id = some u :=
        fun u hu => hfacts u (List.mem_cons_of_mem _ hu)
      have hLnd2 : task.id ∉ rest.map (fun t => t.id) ∧
          (rest.map (fun t => t.id)).Nodup := by
        rw [List.map_cons, List.nodup_cons] at hLnd
        exact hLnd
      have hidrest : ∀ u ∈ rest, ¬ u.id = task.id := by
        intro u hu he
        exact hLnd2.1 (List.mem_map.mpr ⟨u, hu, he⟩)
      simp only [tick_loop]
      by_cases h1 : task.id ∈ s.executing_tasks
      · rw [if_pos h1]
        exact ih s hnd hinv hrest hLnd2.2
      · rw [if_neg h1]
        by_cases h2 : check_publish_interval s.tasks now
            cfg.min_publish_interval_minutes = false
        · rw [if_pos h2]
          exact ih s hnd hinv hrest hLnd2.2
        · rw [if_neg h2]
          have hstep := @retryInv_execute_async s task now hnd hinv
            hfact.1 hfact.2
          have hrest' : ∀ u ∈ rest, u.retry_count < u.max_retries ∧
              get_task_by_id (execute_task_async s task now).tasks u.id =
                some u := by
            intro u hu
            refine ⟨(hrest u hu).1, ?_⟩
            rw [get_execute_async_ne
              (show ¬ task.id = u.id from fun he => hidrest u hu he.symm)]
            exact (hrest u hu).2
          exact ih (execute_task_async s task now) hstep.2 hstep.1 hrest'
            hLnd2.2

theorem tick_loop_frame (cfg : AppConfig) (now : Int) (t : PublishTask) :
    ∀ (L : List PublishTask) (s : SchedulerState),
      t ∈ s.tasks → (∀ task ∈ L, ¬ task.id = t.id) →
      t ∈ (tick_loop cfg now s L).tasks ∧
        (t.id ∈ (tick_loop cfg now s L).executing_tasks →
          t.id ∈ s.executing_tasks) := by
  intro L
  induction L with
  | nil =>
      intro s ht _
      exact ⟨ht, fun h => h⟩
  | cons task rest ih =>
      intro s ht hids
      have hhd : ¬ task.id = t.id := hids task (List.mem_cons_self task rest)
      have hrest : ∀ u ∈ rest, ¬ u.id = t.id :=
        fun u hu => hids u (List.mem_cons_of_mem _ hu)
      simp only [tick_loop]
      by_cases h1 : task.id ∈ s.executing_tasks
      · rw [if_pos h1]
        exact ih s ht hrest
      · rw [if_neg h1]
        by_cases h2 : check_publish_interval s.tasks now
            cfg.min_publish_interval_minutes = false
        · rw [if_pos h2]
          exact ih s ht hrest
        · rw [if_neg h2]
          have hstep : t ∈ (execute_task_async s task now).tasks ∧
              (t.id ∈ (execute_task_async s task now).executing_tasks →
                t.id ∈ s.executing_tasks) := by
            by_cases hc : 0 < s.executing_tasks.card
            · simp only [execute_task_async, if_pos hc, handle_task_error]
              cases hget : get_task_by_id s.tasks task.id with
              | none => exact ⟨ht, fun h => Finset.mem_of_mem_erase h⟩
              | some u =>
                  have hu : u.id = task.id := (get_task_by_id_mem hget).2
                  have hne : ¬ t.id =
                      (u.mark_failed "已有任务在执行中，请等待完成" now).id := by
                    rw [show (u.mark_failed "已有任务在执行中，请等待完成"
                      now).id = u.id from rfl, hu]
                    exact fun he => hhd he.symm
                  exact ⟨mem_update_task_of_ne ht hne,
                    fun h => Finset.mem_of_mem_erase h⟩
            · simp only [execute_task_async, if_neg hc]
              refine ⟨mem_update_task_of_ne ht
                (show ¬ t.id = (task.mark_running now).id from
                  fun he => hhd he.symm), ?_⟩
              intro h
              rw [Finset.mem_insert] at h
              rcases h with h | h
              · exact absurd h.symm hhd
              · exact h
          have hrec := ih (execute_task_async s task now) hstep.1 hrest
          exact ⟨hrec.1, fun h => hstep.2 (hrec.2 h)⟩

theorem retryInv_step (cfg : AppConfig) (s : SchedulerState)
    (e : SchedEvent) (s' : SchedulerState) (hnd : NodupIds s.tasks)
    (hinv : RetryInvariant s) (hstep : SchedStep cfg s e s') :
    RetryInvariant s' := by
  cases hstep with
  | tick now =>
      simp only [check_and_execute_tasks]
      by_cases hr : s.is_running = false
      · rw [if_pos hr]; exact hinv
      · rw [if_neg hr]
        set L := get_ready_tasks s.tasks now ++
          get_failed_retry_tasks s.tasks with hL
        by_cases hLe : L.isEmpty = true
        · rw [if_pos hLe]; exact hinv
        · rw [if_neg hLe]
          have hfacts : ∀ task ∈ L, task.retry_count < task.max_retries ∧
              get_task_by_id s.tasks task.id = some task := by
            intro task hmemL
            rcases List.mem_append.mp hmemL with h' | h'
            · have hm := List.mem_filter.mp h'
              have hpend : task.status = .pending := by
                have := hm.2
                simp [is_ready_to_execute] at this
                exact this.1
              exact ⟨(hinv task hm.1).2 (Or.inl hpend),
                get_eq_some_of_mem_nodup hnd hm.1⟩
            · have hm := List.mem_filter.mp h'
              have hlt : task.retry_count < task.max_retries := by
                have := hm.2
                simp [can_retry] at this
                exact this.2
              exact ⟨hlt, get_eq_some_of_mem_nodup hnd hm.1⟩
          have hLnd : (L.map (fun t => t.id)).Nodup := by
            rw [hL, List.map_append]
            refine List.Nodup.append ?_ ?_ ?_
            · exact List.Nodup.sublist
                (List.Sublist.map _ (List.filter_sublist _)) hnd
            · exact List.Nodup.sublist
                (List.Sublist.map _ (List.filter_sublist _)) hnd
            · rw [List.disjoint_left]
              intro a ha hb
              obtain ⟨t1, ht1, ha1⟩ := List.mem_map.mp ha
              obtain ⟨t2, ht2, hb2⟩ := List.mem_map.mp hb
              have hm1 := List.mem_filter.mp ht1
              have hm2 := List.mem_filter.mp ht2
              have h1p : t1.status = .pending := by
                have := hm1.2
                simp [is_ready_to_execute] at this
                exact this.1
              have h2f : t2.status = .failed := by
                have := hm2.2
                simp [can_retry] at this
                exact this.1
              have heq : t1 = t2 := eq_of_mem_of_id_eq hnd hm1.1 hm2.1
                (by rw [ha1, hb2])
              rw [heq, h2f] at h1p
              cases h1p
          exact (tick_loop_retryInv cfg now L s hnd hinv hfacts hLnd).1
  | publishResult tid res now hrun =>
      cases hget : get_task_by_id s.tasks tid with
      | none => simp only [handle_task_success, hget]; exact hinv
      | some task =>
          have htask := get_task_by_id_mem hget
          have hrunning := hrun task hget
          have hlt : task.retry_count < task.max_retries :=
            (hinv task htask.1).2 (Or.inr hrunning)
          have hcase : ∀ u, get_task_by_id s.tasks tid = some u →
              u.retry_count < u.max_retries := by
            intro u hu
            rw [hget] at hu
            cases hu
            exact hlt
          cases res with
          | none =>
              simp only [handle_task_success, hget]
              exact (retryInv_handle_error hnd hinv hcase).1
          | some r =>
              by_cases hs : r.success = true
              · simp only [handle_task_success, hget, hs, if_true]
                intro t ht
                rcases mem_update_task ht with h' | h'
                · subst h'
                  refine ⟨(hinv task htask.1).1, ?_⟩
                  intro hcontra
                  rcases hcontra with hcontra | hcontra <;>
                    simp [PublishTask.mark_completed] at hcontra
                · exact hinv t h'
              · have heq : handle_task_success s tid (some r) now =
                    handle_task_error s tid (r.message.getD "发布失败")
                      now := by
                  simp [handle_task_success, hget, hs]
                rw [heq]
                exact (retryInv_handle_error hnd hinv hcase).1
  | publishError tid msg now hrun =>
      refine (retryInv_handle_error hnd hinv ?_).1
      intro u hu
      have htask := get_task_by_id_mem hu
      exact (hinv u htask.1).2 (Or.inr (hrun u hu))
  | userRetry tid now =>
      cases hget : get_task_by_id s.tasks tid with
      | none => simp only [retry_task, hget]; exact hinv
      | some task =>
          by_cases hcr : can_retry task = true
          · simp only [retry_task, hget, hcr, if_true]
            have hfl : task.status = .failed ∧
                task.retry_count < task.max_retries := by
              simpa [can_retry] using hcr
            intro t ht
            rcases mem_update_task ht with h' | h'
            · subst h'
              exact ⟨le_of_lt hfl.2, fun _ => hfl.2⟩
            · exact hinv t h'
          · have heq : retry_task s tid now = s := by
              simp [retry_task, hget, hcr]
            rw [heq]
            exact hinv
  | userExecuteNow tid now =>
      simp only [execute_task_immediately]
      by_cases hr : s.is_running = false
      · rw [if_pos hr]; exact hinv
      · rw [if_neg hr]
        by_cases hex : s.executing_tasks ≠ ∅
        · rw [if_pos hex]; exact hinv
        · rw [if_neg hex]
          cases hget : get_task_by_id s.tasks tid with
          | none => simp only [hget]; exact hinv
          | some task =>
              simp only [hget]
              by_cases hst : task.status ≠ TaskStatus.pending
              · rw [if_pos hst]; exact hinv
              · rw [if_neg hst]
                by_cases hmem : task.id ∈ s.executing_tasks
                · rw [if_pos hmem]; exact hinv
                · rw [if_neg hmem]
                  have hpend : task.status = .pending := not_not.mp hst
                  have htask := get_task_by_id_mem hget
                  have hlt := (hinv task htask.1).2 (Or.inl hpend)
                  have hget' : get_task_by_id s.tasks task.id = some task := by
                    rw [htask.2]
                    exact hget
                  exact (retryInv_execute_async hnd hinv hlt hget').1

theorem terminal_not_redispatched (cfg : AppConfig) (s : SchedulerState)
    (now : Int) (t : PublishTask) (hnd : NodupIds s.tasks)
    (ht : t ∈ s.tasks) (hfail : t.status = .failed)
    (hterm : t.max_retries ≤ t.retry_count) :
    t ∈ (check_and_execute_tasks s cfg now).tasks ∧
      (t.id ∈ (check_and_execute_tasks s cfg now).executing_tasks →
        t.id ∈ s.executing_tasks) := by
  simp only [check_and_execute_tasks]
  by_cases hr : s.is_running = false
  · rw [if_pos hr]; exact ⟨ht, fun h => h⟩
  · rw [if_neg hr]
    set L := get_ready_tasks s.tasks now ++
      get_failed_retry_tasks s.tasks with hL
    by_cases hLe : L.isEmpty = true
    · rw [if_pos hLe]; exact ⟨ht, fun h => h⟩
    · rw [if_neg hLe]
      have hids : ∀ task ∈ L, ¬ task.id = t.id := by
        intro task hmemL he
        have htmem : task ∈ s.tasks := by
          rcases List.mem_append.mp hmemL with h' | h'
          · exact (List.mem_filter.mp h').1
          · exact (List.mem_filter.mp h').1
        have heqt : task = t := eq_of_mem_of_id_eq hnd htmem ht he
        rw [heqt] at hmemL
        rcases List.mem_append.mp hmemL with h' | h'
        · have := (List.mem_filter.mp h').2
          simp [is_ready_to_execute, hfail] at this
        · have := (List.mem_filter.mp h').2
          simp [can_retry, Nat.not_lt.mpr hterm] at this
      exact tick_loop_frame cfg now t L s ht hids

/-- C3: writing the scheduler's operations as an event step relation —
ticks, the single completion callback a dispatched (still Running)
attempt delivers, the GUI retry command (whose only call site,
main_window.py `retry_task`, guards the reset with `can_retry`), and the
GUI execute-now command — `retry_count ≤ max_retries` is an invariant of
every reachable state (retry-eligibility is checked before each
dispatch, and `reset_for_retry` is only reached for tasks with retries
left), and a Failed task with `retry_count ≥ max_retries` is never
re-dispatched by any tick: it is neither due nor retry-eligible, so the
tick leaves it stored unchanged and acquires no guard entry for it. -/
theorem c3_retry_bound :
    (∀ (cfg : AppConfig) (s : SchedulerState) (e : SchedEvent)
        (s' : SchedulerState), NodupIds s.tasks → RetryInvariant s →
        SchedStep cfg s e s' → RetryInvariant s') ∧
    (∀ (cfg : AppConfig) (s : SchedulerState) (now : Int)
        (t : PublishTask), NodupIds s.tasks → t ∈ s.tasks →
        t.status = .failed → t.max_retries ≤ t.retry_count →
        t ∈ (check_and_execute_tasks s cfg now).tasks ∧
          (t.id ∈ (check_and_execute_tasks s cfg now).executing_tasks →
            t.id ∈ s.executing_tasks)) :=
  ⟨fun cfg s e s' hnd hinv hstep => retryInv_step cfg s e s' hnd hinv hstep,
   fun cfg s now t hnd ht hfail hterm =>
     terminal_not_redispatched cfg s now t hnd ht hfail hterm⟩

/-- A terminal Failed task (retry budget exhausted). -/
def terminalTask : PublishTask :=
  { id := "tm", title := "t", content := "c", images := [], topics := [],
    publish_time := 0, status := .failed, created_time := some 0,
    updated_time := some 0, result_message := some "err",
    retry_count := 3, max_retries := 3 }

/-- Store holding the terminal task and a due Pending task. -/
def terminalState : SchedulerState :=
  { is_running := true,
    tasks := [terminalTask,
      { id := "tp", title := "p", content := "c", images := [],
        topics := [], publish_time := 0, status := .pending,
        created_time := some 0, updated_time := some 0,
        result_message := some "", retry_count := 0, max_retries := 3 }],
    executing_tasks := ∅ }

/-- C3 witness: the invariant is preserved across a concrete tick step,
and the concrete terminal task survives a tick untouched with no guard
entry acquired for it. -/
theorem c3_retry_bound_witness :
    RetryInvariant (check_and_execute_tasks terminalState {} 5) ∧
      (terminalTask ∈ (check_and_execute_tasks terminalState {} 5).tasks ∧
        ("tm" ∈ (check_and_execute_tasks terminalState {} 5).executing_tasks →
          "tm" ∈ terminalState.executing_tasks)) := by
  constructor
  · exact c3_retry_bound.1 {} terminalState (.tick 5) _
      (by unfold NodupIds; decide) (by unfold RetryInvariant; decide)
      (SchedStep.tick terminalState 5)
  · exact c3_retry_bound.2 {} terminalState 5 terminalTask
      (by unfold NodupIds; decide) (by decide) rfl (by decide)

end SocialPoster
